import Mathlib

/-!
Verification of the ShadowPlayUploader upload-orchestration core against its
natural-language specification.  Each Python function relevant to a claim is
shallowly embedded as an executable Lean definition; theorems below settle the
claims.

Modelling conventions:
* Python floats (sizes in MB, retry delays) are modelled as `ℚ`; all values
  appearing in the source and claims are exactly representable.
* File-system and network effects are modelled as explicit inputs: the
  completion detector receives the sequence of `os.path.getsize`/existence
  observations, the retry engine receives the outcome of each attempt and the
  jitter samples, the batch orchestrator receives per-file environment outcomes.
* `datetime.now()` is modelled as an explicit clock value (`Nat`).
-/

namespace ShadowPlay

/-! ## Completion detector (`uploader_batch.is_file_complete`)

The Python loop polls up to `max_checks = 5` rounds.  At each round it first
checks `os.path.exists(path)` and then reads `os.path.getsize(path)`; a round's
observation is therefore `Option Nat` (`none` = the file no longer exists,
`some s` = its size is `s`).  `prev` starts at the sentinel `-1` exactly as in
the source, so sizes are compared as integers against an `Int` accumulator. -/

/-- One polling loop of `is_file_complete`: `fuel` rounds remain, the current
round index is `check`, and `prev` holds the previously observed size
(`-1` before the first round, as in the source). -/
def is_file_complete_go (obs : Nat → Option Nat) : Nat → Nat → Int → Bool
  | 0, _, _ => false
  | fuel + 1, check, prev =>
    match obs check with
    | none => false
    | some size => if (size : Int) = prev then true else is_file_complete_go obs fuel (check + 1) (size : Int)

/-- `is_file_complete(path)` from `src/app/uploader_batch.py`, with the file
system abstracted into the observation function `obs` (round ↦ existence/size
at that round).  `max_checks = 5`, `prev = -1` initially. -/
def is_file_complete (obs : Nat → Option Nat) : Bool :=
  is_file_complete_go obs 5 0 (-1)

/-- The detector's true acceptance condition (proved below): some round `i`
with `i + 1` still within the 5 polling rounds observes the same size as round
`i + 1`, and the file existed at every earlier round. -/
def stabilizesWithin (obs : Nat → Option Nat) : Prop :=
  ∃ i, i + 1 < 5 ∧ (∃ s, obs i = some s ∧ obs (i + 1) = some s) ∧
    ∀ j < i, (obs j).isSome

/-- Observation sequence in which round 0 sees size 100 and all later rounds
see size 150 — the claim's `100, 150, 150` scenario. -/
def obs_100_150 : Nat → Option Nat := fun k => if k = 0 then some 100 else some 150

/-- Observation sequence in which every round sees size 100. -/
def obs_100 : Nat → Option Nat := fun _ => some 100

/-! ## Retry engine (`retry.retry_operation`)

`RetryConfig` mirrors `src/app/retry.py`.  The tuple of retryable exception
classes becomes a predicate on an abstract failure type `ε` (a Python `except`
clause either catches a raised failure — it is of a retryable kind — or lets
it propagate).  The outcome of each attempt is an input `op : Nat → Except ε α`
(attempt number ↦ raise/return), and `random.random()` is an input stream
`rand : Nat → ℚ` sampled once per retried attempt.  `retry_operation` returns
the propagated result together with the list of `time.sleep` durations, in
order.  The result is `none` only on the unreachable `raise last_exception`
path after the loop (reachable in Python only when `max_attempts = 0`). -/

structure RetryConfig (ε : Type) where
  max_attempts : Nat
  base_delay : ℚ
  max_delay : ℚ
  exponential_base : ℚ
  jitter : Bool
  retry_exceptions : ε → Bool

/-- The loop body of `retry_operation`: `fuel` counts the remaining iterations
of `for attempt in range(1, max_attempts + 1)`, `attempt` is the current
attempt number. -/
def retry_go {ε α : Type} (cfg : RetryConfig ε) (op : Nat → Except ε α) (rand : Nat → ℚ) :
    Nat → Nat → Option (Except ε α) × List ℚ
  | 0, _ => (none, [])
  | fuel + 1, attempt =>
    match op attempt with
    | .ok v => (some (.ok v), [])
    | .error e =>
      if cfg.retry_exceptions e = false then (some (.error e), [])
      else if attempt = cfg.max_attempts then (some (.error e), [])
      else
        let delay := min (cfg.base_delay * cfg.exponential_base ^ (attempt - 1)) cfg.max_delay
        let delay := if cfg.jitter then delay * (1/2 + rand attempt * (1/2)) else delay
        let rest := retry_go cfg op rand fuel (attempt + 1)
        (rest.1, delay :: rest.2)

/-- `retry_operation(operation, ..., config)` from `src/app/retry.py`:
attempts run from 1 to `max_attempts`; a failure whose kind is not in
`retry_exceptions` is not caught by the `except` clause and propagates at
once; a retryable failure on the final attempt is re-raised; otherwise the
backoff delay `min(base_delay * exponential_base^(attempt-1), max_delay)` is
computed, scaled by `0.5 + random.random() * 0.5` when jitter is on, slept,
and the loop continues. -/
def retry_operation {ε α : Type} (cfg : RetryConfig ε) (op : Nat → Except ε α)
    (rand : Nat → ℚ) : Option (Except ε α) × List ℚ :=
  retry_go cfg op rand cfg.max_attempts 1

/-- The claim's policy: `base_delay=1, exponential_base=2, max_delay=60,
max_attempts=5`, jitter disabled, every failure kind retryable. -/
def cfgC2 : RetryConfig Unit :=
  { max_attempts := 5, base_delay := 1, max_delay := 60, exponential_base := 2,
    jitter := false, retry_exceptions := fun _ => true }

/-- The claim's policy with jitter enabled. -/
def cfgC2jitter : RetryConfig Unit :=
  { cfgC2 with jitter := true }

/-- An operation that fails (with a retryable kind) on every attempt. -/
def opAlwaysFail : Nat → Except Unit Unit := fun _ => .error ()

/-- A degenerate jitter source (unused when jitter is disabled). -/
def rand0 : Nat → ℚ := fun _ => 0

/-- The delay computed (and slept) after a failed, retried attempt:
`min(base_delay * exponential_base^(attempt-1), max_delay)`, scaled by
`0.5 + random.random() * 0.5` when jitter is enabled. -/
def backoff_delay {ε : Type} (cfg : RetryConfig ε) (rand : Nat → ℚ) (attempt : Nat) : ℚ :=
  let delay := min (cfg.base_delay * cfg.exponential_base ^ (attempt - 1)) cfg.max_delay
  if cfg.jitter then delay * (1/2 + rand attempt * (1/2)) else delay

/-- A policy whose retryable set is empty (no failure kind is caught). -/
def cfgNoRetry : RetryConfig Unit :=
  { max_attempts := 3, base_delay := 1, max_delay := 60, exponential_base := 2,
    jitter := false, retry_exceptions := fun _ => false }

/-! ## Upload queue (`upload_queue.UploadItem` and per-item operations)

`UploadItem` mirrors the dataclass in `src/app/upload_queue.py`; timestamps
are abstract clock values (`Nat`), `progress` is a `ℚ` in place of the Python
float.  The queue methods `pause_upload`, `resume_upload`, `cancel_upload`
mutate a single item under the queue lock; they are embedded as pure
transition functions returning the Python result (`Bool`) and the updated
item.  Worker-side mutations (`_worker` claiming a pending item,
`_process_upload` finishing it) and `update_progress` are embedded as further
operations on the item. -/

inductive UploadStatus where
  | pending
  | uploading
  | completed
  | failed
  | cancelled
  | paused
deriving DecidableEq, Repr

structure UploadItem where
  file_path : String
  file_name : String
  file_size : Nat
  file_hash : Nat
  status : UploadStatus
  progress : ℚ
  uploaded_bytes : Nat
  error_message : Option String
  start_time : Option Nat
  end_time : Option Nat
  retry_count : Nat
  max_retries : Nat
deriving DecidableEq, Repr

/-- `UploadQueue.add_upload` item construction: dataclass defaults plus
`__post_init__` setting `start_time = datetime.now()`. -/
def mkUploadItem (path name : String) (size hash now : Nat) : UploadItem :=
  { file_path := path, file_name := name, file_size := size, file_hash := hash,
    status := .pending, progress := 0, uploaded_bytes := 0,
    error_message := none, start_time := some now, end_time := none,
    retry_count := 0, max_retries := 3 }

/-- `UploadQueue.pause_upload`: legal only from `UPLOADING`. -/
def pause_upload (it : UploadItem) : Bool × UploadItem :=
  if it.status = .uploading then (true, { it with status := .paused })
  else (false, it)

/-- `UploadQueue.resume_upload`: legal only from `PAUSED`; re-enters `PENDING`. -/
def resume_upload (it : UploadItem) : Bool × UploadItem :=
  if it.status = .paused then (true, { it with status := .pending })
  else (false, it)

/-- `UploadQueue.cancel_upload`: legal from `PENDING`, `UPLOADING` or
`PAUSED`; sets `CANCELLED` and `end_time`. -/
def cancel_upload (now : Nat) (it : UploadItem) : Bool × UploadItem :=
  if it.status = .pending ∨ it.status = .uploading ∨ it.status = .paused then
    (true, { it with status := .cancelled, end_time := some now })
  else (false, it)

/-- The per-item mutations performed by the queue API and its worker loop. -/
inductive QueueOp where
  | pause
  | resume
  | cancel
  /-- `UploadQueue.update_progress`: unconditionally overwrites `progress`
  and `uploaded_bytes`. -/
  | update_progress (progress : ℚ) (bytes : Nat)
  /-- `_worker` claiming a `PENDING` item: atomic flip to `UPLOADING` and
  `start_time = now` (items in other states are not claimed). -/
  | worker_claim
  /-- `_process_upload` success path: `COMPLETED`, `progress = 100`,
  `uploaded_bytes = file_size`, `end_time = now`. -/
  | worker_complete
  /-- `_process_upload` failure path: `FAILED`, message recorded,
  `end_time = now`. -/
  | worker_fail (msg : String)
deriving DecidableEq, Repr

def applyOp (now : Nat) (it : UploadItem) : QueueOp → UploadItem
  | .pause => (pause_upload it).2
  | .resume => (resume_upload it).2
  | .cancel => (cancel_upload now it).2
  | .update_progress p b => { it with progress := p, uploaded_bytes := b }
  | .worker_claim =>
      if it.status = .pending then { it with status := .uploading, start_time := some now }
      else it
  | .worker_complete =>
      { it with status := .completed, progress := 100,
                uploaded_bytes := it.file_size, end_time := some now }
  | .worker_fail msg =>
      { it with status := .failed, error_message := some msg, end_time := some now }

/-- Apply a sequence of timed queue operations to an item. -/
def applyOps (it : UploadItem) (ops : List (Nat × QueueOp)) : UploadItem :=
  ops.foldl (fun acc p => applyOp p.1 acc p.2) it

/-! ## Batch orchestrator (`uploader_batch.start_batch_upload` file loop)

The per-file environment outcomes are bundled in `FileCand`: the file's size
in MB (`os.path.getsize(fpath) / (1024*1024)`), the completion-detector
verdict, whether `hash_file` succeeds and the hash it returns, and whether
`upload_video` returns `True` or raises.  `uploaded_hashes` is the set loaded
from the hash log *once at the start of the run* (it is never updated during
the loop in the source).  The run state tracks the three counters, the
fingerprints appended to the hash log, and the files passed to
`handle_file_after_upload` (deleted or moved). -/

structure FileSettings where
  min_file_size_mb : ℚ
  max_file_size_mb : ℚ
deriving DecidableEq, Repr

structure FileCand where
  name : String
  size_mb : ℚ
  complete : Bool
  hash_ok : Bool
  hash : Nat
  upload_ok : Bool
deriving DecidableEq, Repr

structure BatchState where
  uploaded : Nat
  skipped : Nat
  failed : Nat
  /-- Fingerprints appended to the hash log during this run, in order. -/
  hash_log : List Nat
  /-- Files handed to `handle_file_after_upload` (deleted/moved), in order. -/
  disposed : List String
deriving DecidableEq, Repr

/-- One iteration of the `for i, fname in enumerate(files, 1)` loop of
`start_batch_upload`: size bounds (a bound of `0` disables the check), then
the completion detector, then hashing (`hash_file` raising lands in the
per-file `except` and counts as failed), then the duplicate check against the
set loaded at run start, then the upload; on success the fingerprint is
appended to the hash log and the file is disposed; an upload exception counts
as failed and touches nothing else. -/
def processFile (fs : FileSettings) (uploaded_hashes : List Nat)
    (st : BatchState) (f : FileCand) : BatchState :=
  if fs.min_file_size_mb > 0 ∧ f.size_mb < fs.min_file_size_mb then
    { st with skipped := st.skipped + 1 }
  else if fs.max_file_size_mb > 0 ∧ f.size_mb > fs.max_file_size_mb then
    { st with skipped := st.skipped + 1 }
  else if f.complete = false then
    { st with skipped := st.skipped + 1 }
  else if f.hash_ok = false then
    { st with failed := st.failed + 1 }
  else if f.hash ∈ uploaded_hashes then
    { st with skipped := st.skipped + 1 }
  else if f.upload_ok then
    { st with uploaded := st.uploaded + 1,
              hash_log := st.hash_log ++ [f.hash],
              disposed := st.disposed ++ [f.name] }
  else
    { st with failed := st.failed + 1 }

/-- The whole file loop of `start_batch_upload`, starting from zero counters.
Because every per-file exception is caught by the per-file `except` clause,
the loop always runs to the end of the list. -/
def start_batch_upload (fs : FileSettings) (uploaded_hashes : List Nat)
    (files : List FileCand) : BatchState :=
  files.foldl (processFile fs uploaded_hashes) ⟨0, 0, 0, [], []⟩

/-- Admission predicate: the file reaches the upload call (passes size
bounds, completion, hashing, and the duplicate check against the run-start
set). -/
def admitted (fs : FileSettings) (uploaded_hashes : List Nat) (f : FileCand) : Bool :=
  if fs.min_file_size_mb > 0 ∧ f.size_mb < fs.min_file_size_mb then false
  else if fs.max_file_size_mb > 0 ∧ f.size_mb > fs.max_file_size_mb then false
  else if f.complete = false then false
  else if f.hash_ok = false then false
  else if f.hash ∈ uploaded_hashes then false
  else true

/-! ## Channel manager (`channel_manager.ChannelManager`)

For claim C9 the relevant state is a single channel's cached credential, its
persisted token file, the behaviour of `creds.refresh(Request())` (success
returns the refreshed credential, `RefreshError` is modelled as `none`), and
the credential the interactive OAuth flow (`flow.run_local_server`) would
return.  `AuthResult` records the credential the returned service is bound
to, how many times the interactive flow ran, what was written to the token
file, and the updated cache entry.  For claim C10 the relevant state is the
set of known channel ids and the active channel id. -/

structure Creds where
  valid : Bool
  expired : Bool
  refresh_token : Bool
deriving DecidableEq, Repr

structure AuthResult where
  creds : Creds
  flow_runs : Nat
  persisted : Option Creds
  cache_out : Option Creds
deriving DecidableEq, Repr

/-- The part of `ChannelManager._get_authenticated_service` after the cache
check: load the token file, then run the block
`if not creds or not creds.valid: ...`.  Inside the block, refresh is
attempted only when `creds and creds.expired and creds.refresh_token`; a
`RefreshError` (modelled as `refresh c = none`) resets `creds` to `None`.
The interactive flow then runs only under `if not creds:` — a loaded
credential object is truthy even when invalid, so an invalid credential not
eligible for refresh is saved and used as-is without re-authentication. -/
def auth_load_and_refresh (stored : Option Creds) (refresh : Creds → Option Creds)
    (flowCreds : Creds) : AuthResult :=
  match stored with
  | none =>
    -- `not creds` holds: skip refresh, run the interactive flow, save, cache
    ⟨flowCreds, 1, some flowCreds, some flowCreds⟩
  | some c =>
    if c.valid then
      -- the refresh/authenticate/save block is skipped; cache is updated
      ⟨c, 0, none, some c⟩
    else
      let creds1 : Option Creds :=
        if c.expired && c.refresh_token then refresh c else some c
      match creds1 with
      | some c' =>
        -- `if not creds` is false (credential objects are truthy): save, cache
        ⟨c', 0, some c', some c'⟩
      | none =>
        -- refresh raised `RefreshError`: interactive flow, save, cache
        ⟨flowCreds, 1, some flowCreds, some flowCreds⟩

/-- `ChannelManager._get_authenticated_service` for a resolved channel id,
with the id-keyed dict/file lookups replaced by that channel's entries:
`cache` is `credentials_cache.get(channel_id)`, `stored` the unpickled token
file (`none` when absent or unreadable), `refresh` the outcome of
`creds.refresh(Request())`, and `flowCreds` the credential produced by the
interactive OAuth flow. -/
def get_authenticated_service (cache stored : Option Creds)
    (refresh : Creds → Option Creds) (flowCreds : Creds) : AuthResult :=
  -- cached credentials short-circuit only when valid
  match cache with
  | some c =>
    if c.valid then ⟨c, 0, none, cache⟩
    else auth_load_and_refresh stored refresh flowCreds
  | none => auth_load_and_refresh stored refresh flowCreds

/-- Channel-manager state relevant to `set_active_channel`: the keys of
`self.channels` and `self.active_channel_id`. -/
structure CMState where
  channels : List String
  active_channel_id : Option String
deriving DecidableEq, Repr

/-- `ChannelManager.set_active_channel`: succeeds iff the id is a known
channel; on failure the state is untouched. -/
def set_active_channel (st : CMState) (channel_id : String) : Bool × CMState :=
  if channel_id ∈ st.channels then
    (true, { st with active_channel_id := some channel_id })
  else
    (false, st)

lemma is_file_complete_go_none {obs : Nat → Option Nat} {check : Nat} (fuel : Nat) (prev : Int)
    (h : obs check = none) : is_file_complete_go obs (fuel + 1) check prev = false := by
  simp [is_file_complete_go, h]

lemma is_file_complete_go_some {obs : Nat → Option Nat} {check s : Nat} (fuel : Nat) (prev : Int)
    (h : obs check = some s) :
    is_file_complete_go obs (fuel + 1) check prev =
      if (s : Int) = prev then true else is_file_complete_go obs fuel (check + 1) (s : Int) := by
  simp [is_file_complete_go, h]

lemma is_file_complete_go_spec (obs : Nat → Option Nat) :
    ∀ (fuel check s₀ : Nat), obs check = some s₀ →
      (∀ j < check, (obs j).isSome) →
      (is_file_complete_go obs fuel (check + 1) (s₀ : Int) = true ↔
        ∃ i, check ≤ i ∧ i + 1 ≤ check + fuel ∧
          (∃ s, obs i = some s ∧ obs (i + 1) = some s) ∧
          ∀ j < i, (obs j).isSome) := by
  intro fuel
  induction fuel with
  | zero =>
    intro check s₀ _ _
    simp only [is_file_complete_go]
    constructor
    · intro h; exact absurd h (by simp)
    · rintro ⟨i, hle, hlt, -, -⟩; omega
  | succ fuel ih =>
    intro check s₀ hself hprev
    cases hnext : obs (check + 1) with
    | none =>
      rw [is_file_complete_go_none fuel _ hnext]
      simp only [Bool.false_eq_true, false_iff]
      rintro ⟨i, hle, hlt, ⟨s, hsi, hsi1⟩, hall⟩
      rcases Nat.lt_trichotomy i (check + 1) with h | h | h
      · have hi : i = check := by omega
        rw [hi, hnext] at hsi1
        exact absurd hsi1 (by simp)
      · rw [h, hnext] at hsi
        exact absurd hsi (by simp)
      · have := hall (check + 1) h
        rw [hnext] at this
        exact absurd this (by simp)
    | some s =>
      rw [is_file_complete_go_some fuel _ hnext]
      by_cases hs : s = s₀
      · subst hs
        rw [if_pos rfl]
        constructor
        · intro _
          exact ⟨check, le_refl _, by omega, ⟨s, hself, hnext⟩, hprev⟩
        · intro _; rfl
      · have hcast : ¬ ((s : Int) = (s₀ : Int)) := by
          intro h; exact hs (by exact_mod_cast h)
        rw [if_neg hcast]
        have hprev' : ∀ j < check + 1, (obs j).isSome := by
          intro j hj
          rcases Nat.lt_or_ge j check with h | h
          · exact hprev j h
          · have hj' : j = check := by omega
            rw [hj', hself]; rfl
        rw [ih (check + 1) s hnext hprev']
        constructor
        · rintro ⟨i, hle, hlt, hm, hall⟩
          exact ⟨i, by omega, by omega, hm, hall⟩
        · rintro ⟨i, hle, hlt, ⟨t, hti, hti1⟩, hall⟩
          rcases Nat.eq_or_lt_of_le hle with heq | hlt'
          · exfalso
            rw [← heq, hself] at hti
            rw [← heq, hnext] at hti1
            have h1 : s₀ = t := Option.some_inj.mp hti
            have h2 : s = t := Option.some_inj.mp hti1
            exact hs (by omega)
          · exact ⟨i, by omega, by omega, ⟨t, hti, hti1⟩, hall⟩

lemma is_file_complete_iff (obs : Nat → Option Nat) :
    is_file_complete obs = true ↔ stabilizesWithin obs := by
  unfold is_file_complete stabilizesWithin
  cases h0 : obs 0 with
  | none =>
    rw [is_file_complete_go_none 4 _ h0]
    simp only [Bool.false_eq_true, false_iff]
    rintro ⟨i, hi, ⟨s, hsi, -⟩, hall⟩
    cases i with
    | zero => rw [h0] at hsi; exact absurd hsi (by simp)
    | succ i =>
      have := hall 0 (Nat.succ_pos i)
      rw [h0] at this; exact absurd this (by simp)
  | some s₀ =>
    rw [is_file_complete_go_some 4 _ h0]
    have hneg : ¬ ((s₀ : Int) = -1) := by omega
    rw [if_neg hneg]
    have hspec := is_file_complete_go_spec obs 4 0 s₀ h0 (by intro j hj; omega)
    rw [show (0 + 1 : Nat) = 1 from rfl] at hspec
    rw [hspec]
    constructor
    · rintro ⟨i, -, hlt, hm, hall⟩; exact ⟨i, by omega, hm, hall⟩
    · rintro ⟨i, hlt, hm, hall⟩; exact ⟨i, Nat.zero_le _, by omega, hm, hall⟩

/-- C1, counterexample: a file whose size is observed as `100, 150, 150, …`
across detector rounds is reported **complete** by `is_file_complete` (the
third round's size equals the second round's), contradicting the claim that
this run is reported incomplete. -/
theorem C1_counterexample : is_file_complete obs_100_150 = true := by decide

/-- C1 (amended): `is_file_complete` reports complete iff, within its 5
polling rounds, some round observes the same size as the immediately
preceding round, with the file existing at every round up to that point —
not only when the size is identical across *all* rounds.  In particular
`100, 100, 100` is complete, `100, 150, 150` is **also** complete, and a file
that disappears before two consecutive rounds agree (e.g. is gone at round 0)
is reported incomplete. -/
theorem C1_completion_detector :
    (∀ obs, is_file_complete obs = true ↔ stabilizesWithin obs) ∧
    is_file_complete obs_100 = true ∧
    is_file_complete obs_100_150 = true ∧
    is_file_complete (fun _ => none) = false :=
  ⟨is_file_complete_iff, by decide, by decide, by decide⟩

/-- C4 (confirmed): `pause_upload` succeeds iff the item is `UPLOADING`,
`resume_upload` iff `PAUSED`, `cancel_upload` iff the status is `PENDING`,
`UPLOADING` or `PAUSED` (then setting `CANCELLED` and `end_time`); every
illegal transition returns `False` and leaves the item unchanged (the
functions are total, so no exception is raised). -/
theorem C4_transition_guards (it : UploadItem) (now : Nat) :
    ((pause_upload it).1 = true ↔ it.status = .uploading) ∧
    ((pause_upload it).1 = false → (pause_upload it).2 = it) ∧
    ((resume_upload it).1 = true ↔ it.status = .paused) ∧
    ((resume_upload it).1 = false → (resume_upload it).2 = it) ∧
    ((cancel_upload now it).1 = true ↔
      (it.status = .pending ∨ it.status = .uploading ∨ it.status = .paused)) ∧
    ((cancel_upload now it).1 = true →
      (cancel_upload now it).2.status = .cancelled ∧
      (cancel_upload now it).2.end_time = some now) ∧
    ((cancel_upload now it).1 = false → (cancel_upload now it).2 = it) := by
  unfold pause_upload resume_upload cancel_upload
  split_ifs with h1 h2 h3 <;> simp_all

/-- C4, witness: on a fresh `PENDING` item, `pause_upload` fails and leaves
the item unchanged, while `cancel_upload` succeeds and marks it cancelled. -/
theorem C4_transition_guards_witness :
    (pause_upload (mkUploadItem "f" "f" 10 1 0)).2 = mkUploadItem "f" "f" 10 1 0 ∧
    (cancel_upload 5 (mkUploadItem "f" "f" 10 1 0)).2.status = .cancelled :=
  ⟨(C4_transition_guards (mkUploadItem "f" "f" 10 1 0) 5).2.1 (by decide),
   ((C4_transition_guards (mkUploadItem "f" "f" 10 1 0) 5).2.2.2.2.2.1 (by decide)).1⟩

/-- C10 (confirmed): `set_active_channel` returns `True` and makes the
channel active iff the id is among the known channels; for an unknown id it
returns `False` and leaves the manager state unchanged. -/
theorem C10_set_active_channel (st : CMState) (cid : String) :
    ((set_active_channel st cid).1 = true ↔ cid ∈ st.channels) ∧
    ((set_active_channel st cid).1 = true →
      (set_active_channel st cid).2 = { st with active_channel_id := some cid }) ∧
    ((set_active_channel st cid).1 = false → (set_active_channel st cid).2 = st) := by
  unfold set_active_channel
  split_ifs with h <;> simp_all

lemma retry_go_succ_error {ε α : Type} {cfg : RetryConfig ε} {op : Nat → Except ε α}
    {rand : Nat → ℚ} {attempt : Nat} {e : ε} (fuel : Nat) (h : op attempt = .error e) :
    retry_go cfg op rand (fuel + 1) attempt =
      if cfg.retry_exceptions e = false then (some (.error e), [])
      else if attempt = cfg.max_attempts then (some (.error e), [])
      else ((retry_go cfg op rand fuel (attempt + 1)).1,
            backoff_delay cfg rand attempt :: (retry_go cfg op rand fuel (attempt + 1)).2) := by
  simp only [retry_go, h, backoff_delay]

/-- With a retryable failure on every attempt, the sleep sequence from
attempt `attempt` on (with `attempt + fuel = max_attempts + 1`) is the tail
of backoff delays for attempts `attempt, attempt+1, …, max_attempts - 1`. -/
lemma retry_go_sleeps {ε α : Type} (cfg : RetryConfig ε) (op : Nat → Except ε α)
    (rand : Nat → ℚ) (e : ε) (he : cfg.retry_exceptions e = true)
    (hop : ∀ k, op k = .error e) :
    ∀ (fuel attempt : Nat), attempt + fuel = cfg.max_attempts + 1 →
      (retry_go cfg op rand fuel attempt).2 =
        (List.range (fuel - 1)).map (fun i => backoff_delay cfg rand (attempt + i)) := by
  intro fuel
  induction fuel with
  | zero => intro attempt _; simp [retry_go]
  | succ fuel ih =>
    intro attempt htot
    rw [retry_go_succ_error fuel (hop attempt), if_neg (by simp [he])]
    by_cases hmax : attempt = cfg.max_attempts
    · rw [if_pos hmax]
      have hf : fuel = 0 := by omega
      subst hf
      simp
    · rw [if_neg hmax]
      have hfuel : ∃ fuel', fuel = fuel' + 1 := ⟨fuel - 1, by omega⟩
      obtain ⟨fuel', rfl⟩ := hfuel
      show backoff_delay cfg rand attempt :: (retry_go cfg op rand (fuel' + 1) (attempt + 1)).2 = _
      rw [ih (attempt + 1) (by omega)]
      rw [show fuel' + 1 + 1 - 1 = fuel' + 1 from rfl, List.range_succ_eq_map,
          List.map_cons, List.map_map]
      congr 1
      apply List.map_congr_left
      intro i _
      have harith : attempt + 1 + i = attempt + (i + 1) := by omega
      simp [Function.comp, harith]

/-- For the C2 policy without jitter, the slept delays are the four backoff
delays of attempts 1–4 (no sleep follows the failing final attempt 5). -/
lemma cfgC2_sleeps (rand : Nat → ℚ) :
    (retry_operation cfgC2 opAlwaysFail rand).2 = [1, 2, 4, 8] := by
  rw [show (retry_operation cfgC2 opAlwaysFail rand).2 =
        [backoff_delay cfgC2 rand 1, backoff_delay cfgC2 rand 2,
         backoff_delay cfgC2 rand 3, backoff_delay cfgC2 rand 4] from rfl]
  norm_num [backoff_delay, cfgC2, min_def]

/-- For the C2 policy with jitter, each slept delay is the no-jitter delay
scaled by `1/2 + rand k * 1/2`. -/
lemma cfgC2jitter_sleeps (rand : Nat → ℚ) :
    (retry_operation cfgC2jitter opAlwaysFail rand).2 =
      [1 * (1/2 + rand 1 * (1/2)), 2 * (1/2 + rand 2 * (1/2)),
       4 * (1/2 + rand 3 * (1/2)), 8 * (1/2 + rand 4 * (1/2))] := by
  rw [show (retry_operation cfgC2jitter opAlwaysFail rand).2 =
        [backoff_delay cfgC2jitter rand 1, backoff_delay cfgC2jitter rand 2,
         backoff_delay cfgC2jitter rand 3, backoff_delay cfgC2jitter rand 4] from rfl]
  norm_num [backoff_delay, cfgC2jitter, cfgC2, min_def]

/-- C2, counterexample: with `base_delay=1, exponential_base=2, max_delay=60,
max_attempts=5`, jitter off and every attempt failing, the engine sleeps only
between consecutive attempts — four sleeps, `1, 2, 4, 8` — not the claimed
five-element sequence `1, 2, 4, 8, 16` (no sleep follows the final attempt). -/
theorem C2_counterexample :
    (retry_operation cfgC2 opAlwaysFail rand0).2 ≠ [1, 2, 4, 8, 16] := by
  rw [cfgC2_sleeps rand0]
  decide

/-- C2 (amended): for the policy `base_delay=1, exponential_base=2,
max_delay=60, max_attempts=5` with every attempt failing retryably, the sleep
sequence without jitter is exactly `1, 2, 4, 8` (sleeps happen only between
attempts, so there are `max_attempts - 1` of them and no `16`); with jitter
each delay lies in `[0.5 × expected, expected]` for the corresponding expected
delay; and in general, without jitter, the sleep between attempt `k` and
`k+1` equals `min(base_delay * exponential_base^(k-1), max_delay)`. -/
theorem C2_backoff_sequence (rand : Nat → ℚ) (hr : ∀ k, 0 ≤ rand k ∧ rand k < 1) :
    (retry_operation cfgC2 opAlwaysFail rand).2 = [1, 2, 4, 8] ∧
    (∀ i d, (retry_operation cfgC2jitter opAlwaysFail rand).2.get? i = some d →
      ∃ expected, [(1 : ℚ), 2, 4, 8].get? i = some expected ∧
        expected / 2 ≤ d ∧ d ≤ expected) ∧
    (∀ (ε α : Type) (cfg : RetryConfig ε) (e : ε) (op : Nat → Except ε α) (rnd : Nat → ℚ),
      cfg.jitter = false → cfg.retry_exceptions e = true → (∀ k, op k = .error e) →
      (retry_operation cfg op rnd).2 =
        (List.range (cfg.max_attempts - 1)).map
          (fun i => min (cfg.base_delay * cfg.exponential_base ^ i) cfg.max_delay)) := by
  have key : ∀ (k : Nat) (c : ℚ), 0 < c →
      c / 2 ≤ c * (1/2 + rand k * (1/2)) ∧ c * (1/2 + rand k * (1/2)) ≤ c := by
    intro k c hc
    obtain ⟨h0, h1⟩ := hr k
    constructor
    · nlinarith
    · nlinarith
  refine ⟨cfgC2_sleeps rand, ?_, ?_⟩
  · intro i d hd
    rw [cfgC2jitter_sleeps rand] at hd
    match i with
    | 0 =>
      refine ⟨1, rfl, ?_⟩
      simp only [List.get?] at hd
      obtain rfl : (1 : ℚ) * (1/2 + rand 1 * (1/2)) = d := by injection hd
      exact key 1 1 (by norm_num)
    | 1 =>
      refine ⟨2, rfl, ?_⟩
      simp only [List.get?] at hd
      obtain rfl : (2 : ℚ) * (1/2 + rand 2 * (1/2)) = d := by injection hd
      exact key 2 2 (by norm_num)
    | 2 =>
      refine ⟨4, rfl, ?_⟩
      simp only [List.get?] at hd
      obtain rfl : (4 : ℚ) * (1/2 + rand 3 * (1/2)) = d := by injection hd
      exact key 3 4 (by norm_num)
    | 3 =>
      refine ⟨8, rfl, ?_⟩
      simp only [List.get?] at hd
      obtain rfl : (8 : ℚ) * (1/2 + rand 4 * (1/2)) = d := by injection hd
      exact key 4 8 (by norm_num)
    | (n + 4) =>
      simp only [List.get?] at hd
      exact Option.noConfusion hd
  · intro ε α cfg e op rnd hj he hop
    have h := retry_go_sleeps cfg op rnd e he hop cfg.max_attempts 1 (by omega)
    show (retry_go cfg op rnd cfg.max_attempts 1).2 = _
    rw [h]
    apply List.map_congr_left
    intro i _
    have harith : 1 + i - 1 = i := by omega
    simp [backoff_delay, hj, harith]

/-- C2, witness: the jitter-source bound holds for the constant-zero source,
and the no-jitter sleep sequence is `[1, 2, 4, 8]`. -/
theorem C2_backoff_sequence_witness :
    (∀ k : Nat, (0 : ℚ) ≤ rand0 k ∧ rand0 k < 1) ∧
    (retry_operation cfgC2 opAlwaysFail rand0).2 = [1, 2, 4, 8] :=
  ⟨fun _ => ⟨by norm_num [rand0], by norm_num [rand0]⟩,
   (C2_backoff_sequence rand0 (fun _ => ⟨by norm_num [rand0], by norm_num [rand0]⟩)).1⟩

/-- If attempts `attempt, …, k-1` fail retryably and attempt `k` fails with a
non-retryable kind (or `k` is the final attempt), the loop propagates the
attempt-`k` failure and has slept exactly `k - attempt` times. -/
lemma retry_go_error_propagation {ε α : Type} (cfg : RetryConfig ε)
    (op : Nat → Except ε α) (rand : Nat → ℚ) (e : ε) :
    ∀ (fuel attempt k : Nat), attempt + fuel = cfg.max_attempts + 1 →
      attempt ≤ k → k ≤ cfg.max_attempts →
      (∀ j, attempt ≤ j → j < k → ∃ ej, op j = .error ej ∧ cfg.retry_exceptions ej = true) →
      op k = .error e → (cfg.retry_exceptions e = false ∨ k = cfg.max_attempts) →
      (retry_go cfg op rand fuel attempt).1 = some (.error e) ∧
      (retry_go cfg op rand fuel attempt).2.length = k - attempt := by
  intro fuel
  induction fuel with
  | zero => intro attempt k htot hak hkm _ _ _; omega
  | succ fuel ih =>
    intro attempt k htot hak hkm hearlier hk hfin
    rcases Nat.eq_or_lt_of_le hak with heq | hlt
    · subst heq
      rw [retry_go_succ_error fuel hk]
      by_cases hrf : cfg.retry_exceptions e = false
      · rw [if_pos hrf]; exact ⟨rfl, by simp⟩
      · rcases hfin with hf | hf
        · exact absurd hf hrf
        · rw [if_neg hrf, if_pos hf]; exact ⟨rfl, by simp⟩
    · obtain ⟨ea, hopa, hra⟩ := hearlier attempt le_rfl hlt
      rw [retry_go_succ_error fuel hopa, if_neg (by simp [hra]),
          if_neg (show attempt ≠ cfg.max_attempts by omega)]
      have hrec := ih (attempt + 1) k (by omega) (by omega) hkm
        (fun j hj1 hj2 => hearlier j (by omega) hj2) hk hfin
      refine ⟨hrec.1, ?_⟩
      show (backoff_delay cfg rand attempt :: (retry_go cfg op rand fuel (attempt + 1)).2).length = _
      rw [List.length_cons, hrec.2]
      omega

/-- C6 (confirmed): under any retry policy, if attempts `1, …, k-1` fail with
retryable kinds and attempt `k` fails with a kind outside the policy's
retryable set, the attempt-`k` failure propagates to the caller with no
further sleep (the sleep count stays `k - 1`) and no further attempts; and a
retryable failure on the final attempt (`k = max_attempts`) likewise
propagates unchanged — never swallowed or replaced. -/
theorem C6_retry_propagation (ε α : Type) (cfg : RetryConfig ε)
    (op : Nat → Except ε α) (rand : Nat → ℚ) (k : Nat) (e : ε)
    (h1 : 1 ≤ k) (hk : k ≤ cfg.max_attempts)
    (hearlier : ∀ j, 1 ≤ j → j < k → ∃ ej, op j = .error ej ∧ cfg.retry_exceptions ej = true)
    (hke : op k = .error e)
    (hfin : cfg.retry_exceptions e = false ∨ k = cfg.max_attempts) :
    (retry_operation cfg op rand).1 = some (.error e) ∧
    (retry_operation cfg op rand).2.length = k - 1 :=
  retry_go_error_propagation cfg op rand e cfg.max_attempts 1 k (by omega) h1 hk
    hearlier hke hfin

/-- C6, witness: under a policy whose retryable set is empty, the very first
failure propagates with zero sleeps. -/
theorem C6_retry_propagation_witness :
    (retry_operation cfgNoRetry opAlwaysFail rand0).1 = some (.error ()) ∧
    (retry_operation cfgNoRetry opAlwaysFail rand0).2.length = 1 - 1 :=
  C6_retry_propagation Unit Unit cfgNoRetry opAlwaysFail rand0 1 () (by omega) (by decide)
    (fun j hj1 hj2 => absurd hj2 (by omega)) rfl (Or.inl rfl)

/-- C10, witness: with known channels `["UC1", "UC2"]`, activating `"UC1"`
updates the active id, and activating the unknown `"UCX"` is a no-op. -/
theorem C10_set_active_channel_witness :
    (set_active_channel ⟨["UC1", "UC2"], none⟩ "UC1").2 = ⟨["UC1", "UC2"], some "UC1"⟩ ∧
    (set_active_channel ⟨["UC1", "UC2"], none⟩ "UCX").2 = ⟨["UC1", "UC2"], none⟩ :=
  ⟨(C10_set_active_channel ⟨["UC1", "UC2"], none⟩ "UC1").2.1 (by decide),
   (C10_set_active_channel ⟨["UC1", "UC2"], none⟩ "UCX").2.2 (by decide)⟩

lemma applyOps_cons (t : Nat) (op : QueueOp) (it : UploadItem) (ops : List (Nat × QueueOp)) :
    applyOps it ((t, op) :: ops) = applyOps (applyOp t it op) ops := rfl

/-- No queue operation changes `file_hash` or `file_size`. -/
lemma applyOp_const (now : Nat) (it : UploadItem) (op : QueueOp) :
    (applyOp now it op).file_hash = it.file_hash ∧
    (applyOp now it op).file_size = it.file_size := by
  cases op <;>
    simp only [applyOp, pause_upload, resume_upload, cancel_upload] <;>
    (try split_ifs) <;> simp

/-- One queue operation preserves the byte bound (given a bounded
`update_progress` argument) and the `end_time`-iff-terminal invariant. -/
lemma applyOp_inv (now : Nat) (it : UploadItem) (op : QueueOp)
    (hb : it.uploaded_bytes ≤ it.file_size)
    (he : it.end_time.isSome = true ↔
      (it.status = .completed ∨ it.status = .failed ∨ it.status = .cancelled))
    (hop : ∀ p b, op = .update_progress p b → b ≤ it.file_size) :
    (applyOp now it op).uploaded_bytes ≤ (applyOp now it op).file_size ∧
    ((applyOp now it op).end_time.isSome = true ↔
      ((applyOp now it op).status = .completed ∨ (applyOp now it op).status = .failed ∨
       (applyOp now it op).status = .cancelled)) := by
  cases op with
  | pause =>
    simp only [applyOp, pause_upload]
    split_ifs with h
    · refine ⟨hb, ?_⟩
      rw [h] at he
      simp at he
      simp [he]
    · exact ⟨hb, he⟩
  | resume =>
    simp only [applyOp, resume_upload]
    split_ifs with h
    · refine ⟨hb, ?_⟩
      rw [h] at he
      simp at he
      simp [he]
    · exact ⟨hb, he⟩
  | cancel =>
    simp only [applyOp, cancel_upload]
    split_ifs with h
    · exact ⟨hb, by simp⟩
    · exact ⟨hb, he⟩
  | update_progress p b => exact ⟨hop p b rfl, he⟩
  | worker_claim =>
    simp only [applyOp]
    split_ifs with h
    · refine ⟨hb, ?_⟩
      rw [h] at he
      simp at he
      simp [he]
    · exact ⟨hb, he⟩
  | worker_complete => exact ⟨le_refl _, by simp [applyOp]⟩
  | worker_fail msg => exact ⟨hb, by simp [applyOp]⟩

/-- Invariant preservation over a whole operation sequence. -/
lemma applyOps_inv (ops : List (Nat × QueueOp)) :
    ∀ (it : UploadItem),
      it.uploaded_bytes ≤ it.file_size →
      (it.end_time.isSome = true ↔
        (it.status = .completed ∨ it.status = .failed ∨ it.status = .cancelled)) →
      (∀ t p b, (t, QueueOp.update_progress p b) ∈ ops → b ≤ it.file_size) →
      (applyOps it ops).file_hash = it.file_hash ∧
      (applyOps it ops).file_size = it.file_size ∧
      (applyOps it ops).uploaded_bytes ≤ (applyOps it ops).file_size ∧
      ((applyOps it ops).end_time.isSome = true ↔
        ((applyOps it ops).status = .completed ∨ (applyOps it ops).status = .failed ∨
         (applyOps it ops).status = .cancelled)) := by
  induction ops with
  | nil => intro it hb he _; exact ⟨rfl, rfl, hb, he⟩
  | cons hd tl ih =>
    intro it hb he hup
    obtain ⟨t, op⟩ := hd
    have hconst := applyOp_const t it op
    have hinv := applyOp_inv t it op hb he
      (fun p b hpb => hup t p b (by rw [hpb]; exact List.mem_cons_self _ _))
    rw [applyOps_cons]
    have hrest := ih (applyOp t it op) hinv.1 hinv.2
      (fun t' p b hmem => by rw [hconst.2]; exact hup t' p b (List.mem_cons_of_mem _ hmem))
    exact ⟨hrest.1.trans hconst.1, hrest.2.1.trans hconst.2, hrest.2.2.1, hrest.2.2.2⟩

/-- C3, counterexample: `update_progress` performs no validation, so a single
`update_progress(item, 50.0, 200)` call on a fresh pending item of size 100
leaves the item `PENDING` with `uploaded_bytes = 200 > 100 = file_size` and
nonzero progress — violating both the byte bound and the
progress-zero-while-pending invariant claimed to hold after any operation
sequence. -/
theorem C3_counterexample :
    (applyOps (mkUploadItem "clip.mp4" "clip.mp4" 100 7 0)
        [(1, .update_progress 50 200)]).status = .pending ∧
    (applyOps (mkUploadItem "clip.mp4" "clip.mp4" 100 7 0)
        [(1, .update_progress 50 200)]).file_size <
      (applyOps (mkUploadItem "clip.mp4" "clip.mp4" 100 7 0)
        [(1, .update_progress 50 200)]).uploaded_bytes ∧
    (applyOps (mkUploadItem "clip.mp4" "clip.mp4" 100 7 0)
        [(1, .update_progress 50 200)]).progress ≠ 0 := by
  refine ⟨rfl, by norm_num [applyOps, applyOp, mkUploadItem], ?_⟩
  show (50 : ℚ) ≠ 0
  norm_num

/-- C3 (amended): after any sequence of the listed queue operations,
`file_hash` never changes and `end_time` is set iff the status is terminal
(`completed`, `failed` or `cancelled`); `uploaded_bytes ≤ file_size` holds
provided every `update_progress` call supplies `uploaded_bytes ≤ file_size`
(the method itself validates nothing); and `progress = 0` while pending holds
at item creation but is not preserved (an `update_progress` call on a pending
item, or pause → resume of a partially-uploaded item, leaves a pending item
with nonzero progress). -/
theorem C3_item_invariants (path name : String) (size hash t0 : Nat)
    (ops : List (Nat × QueueOp))
    (hup : ∀ t p b, (t, QueueOp.update_progress p b) ∈ ops → b ≤ size) :
    (mkUploadItem path name size hash t0).status = .pending ∧
    (mkUploadItem path name size hash t0).progress = 0 ∧
    (applyOps (mkUploadItem path name size hash t0) ops).file_hash = hash ∧
    (applyOps (mkUploadItem path name size hash t0) ops).uploaded_bytes ≤
      (applyOps (mkUploadItem path name size hash t0) ops).file_size ∧
    ((applyOps (mkUploadItem path name size hash t0) ops).end_time.isSome = true ↔
      ((applyOps (mkUploadItem path name size hash t0) ops).status = .completed ∨
       (applyOps (mkUploadItem path name size hash t0) ops).status = .failed ∨
       (applyOps (mkUploadItem path name size hash t0) ops).status = .cancelled)) := by
  have h := applyOps_inv ops (mkUploadItem path name size hash t0)
    (Nat.zero_le _) (by simp [mkUploadItem]) hup
  exact ⟨rfl, rfl, h.1, h.2.2.1, h.2.2.2⟩

/-- C3, witness: a claim–update–cancel run on a size-100 item with a bounded
progress update keeps the hash and satisfies the end-time characterization. -/
theorem C3_item_invariants_witness :
    (applyOps (mkUploadItem "a.mp4" "a.mp4" 100 7 0)
        [(1, .worker_claim), (2, .update_progress 50 50), (3, .cancel)]).file_hash = 7 ∧
    ((applyOps (mkUploadItem "a.mp4" "a.mp4" 100 7 0)
        [(1, .worker_claim), (2, .update_progress 50 50), (3, .cancel)]).end_time.isSome = true ↔
      ((applyOps (mkUploadItem "a.mp4" "a.mp4" 100 7 0)
        [(1, .worker_claim), (2, .update_progress 50 50), (3, .cancel)]).status = .completed ∨
       (applyOps (mkUploadItem "a.mp4" "a.mp4" 100 7 0)
        [(1, .worker_claim), (2, .update_progress 50 50), (3, .cancel)]).status = .failed ∨
       (applyOps (mkUploadItem "a.mp4" "a.mp4" 100 7 0)
        [(1, .worker_claim), (2, .update_progress 50 50), (3, .cancel)]).status = .cancelled)) := by
  have h := C3_item_invariants "a.mp4" "a.mp4" 100 7 0
    [(1, .worker_claim), (2, .update_progress 50 50), (3, .cancel)]
    (by
      intro t p b hmem
      simp only [List.mem_cons, List.not_mem_nil, or_false] at hmem
      rcases hmem with h | h | h <;> simp_all)
  exact ⟨h.2.2.1, h.2.2.2.2⟩

/-- The hash log grows by exactly the fingerprints of admitted,
successfully-uploaded files, in order. -/
lemma foldl_hash_log (fs : FileSettings) (h0 : List Nat) :
    ∀ (files : List FileCand) (st : BatchState),
      (files.foldl (processFile fs h0) st).hash_log =
        st.hash_log ++
          (files.filter (fun f => admitted fs h0 f && f.upload_ok)).map (fun f => f.hash) := by
  intro files
  induction files with
  | nil => intro st; simp
  | cons f tl ih =>
    intro st
    show (tl.foldl (processFile fs h0) (processFile fs h0 st f)).hash_log = _
    rw [ih]
    by_cases h1 : fs.min_file_size_mb > 0 ∧ f.size_mb < fs.min_file_size_mb
    · simp [processFile, admitted, h1]
    · by_cases h2 : fs.max_file_size_mb > 0 ∧ f.size_mb > fs.max_file_size_mb
      · simp [processFile, admitted, h1, h2]
      · by_cases h3 : f.complete = false
        · simp [processFile, admitted, h1, h2, h3]
        · by_cases h4 : f.hash_ok = false
          · simp [processFile, admitted, h1, h2, h3, h4]
          · by_cases h5 : f.hash ∈ h0
            · simp [processFile, admitted, h1, h2, h3, h4, h5]
            · have hadm : admitted fs h0 f = true := by
                simp [admitted, h1, h2, h3, h4, h5]
              by_cases h6 : f.upload_ok
              · simp [processFile, h1, h2, h3, h4, h5, h6, List.filter_cons, hadm]
              · simp [processFile, h1, h2, h3, h4, h5, h6, List.filter_cons, hadm]

/-- C5, counterexample: the in-memory duplicate set is loaded once at the
start of the run and never refreshed, so two candidate files with the same
fingerprint in one run are **both** uploaded — with the first file's
fingerprint already appended to the ledger when the second is processed —
and the fingerprint is ledgered twice. -/
theorem C5_counterexample :
    (processFile ⟨0, 0⟩ [] ⟨0, 0, 0, [], []⟩ ⟨"a.mp4", 5, true, true, 7, true⟩).hash_log = [7] ∧
    start_batch_upload ⟨0, 0⟩ []
        [⟨"a.mp4", 5, true, true, 7, true⟩, ⟨"b.mp4", 5, true, true, 7, true⟩] =
      ⟨2, 0, 0, [7, 7], ["a.mp4", "b.mp4"]⟩ := by
  constructor
  · norm_num [processFile]
  · norm_num [start_batch_upload, processFile]

/-- C5 (amended): in every batch run a fingerprint is appended to the ledger
only for an admitted file whose upload succeeded, never before (the run's
ledger appends are exactly the fingerprints of the admitted, successfully
uploaded files, in order); and a candidate whose fingerprint is in the set
loaded **at the start of the run** is skipped rather than uploaded.  Hence
the same byte content is skipped on a later run once ledgered, but a
duplicate within the same run is uploaded again (the in-memory set is not
updated mid-run). -/
theorem C5_dedup_ledger :
    (∀ (fs : FileSettings) (h0 : List Nat) (files : List FileCand),
      (start_batch_upload fs h0 files).hash_log =
        (files.filter (fun f => admitted fs h0 f && f.upload_ok)).map (fun f => f.hash)) ∧
    (∀ (fs : FileSettings) (h0 : List Nat) (st : BatchState) (f : FileCand),
      ¬ (fs.min_file_size_mb > 0 ∧ f.size_mb < fs.min_file_size_mb) →
      ¬ (fs.max_file_size_mb > 0 ∧ f.size_mb > fs.max_file_size_mb) →
      f.complete = true → f.hash_ok = true → f.hash ∈ h0 →
      processFile fs h0 st f = { st with skipped := st.skipped + 1 }) := by
  constructor
  · intro fs h0 files
    rw [start_batch_upload, foldl_hash_log]
    simp
  · intro fs h0 st f h1 h2 hc hh hdup
    rw [processFile, if_neg h1, if_neg h2, if_neg (by simp [hc]), if_neg (by simp [hh]),
        if_pos hdup]

/-- C5, witness: a file whose fingerprint is in the run-start set (and passes
the earlier filters) only increments the skipped counter. -/
theorem C5_dedup_ledger_witness :
    processFile ⟨0, 0⟩ [7] ⟨0, 0, 0, [], []⟩ ⟨"a.mp4", 5, true, true, 7, true⟩ =
      ⟨0, 1, 0, [], []⟩ :=
  (C5_dedup_ledger).2 ⟨0, 0⟩ [7] ⟨0, 0, 0, [], []⟩ ⟨"a.mp4", 5, true, true, 7, true⟩
    (by norm_num) (by norm_num) rfl rfl (by simp)

/-- C7 (confirmed): a candidate below the configured minimum size bound or
above the maximum bound (each bound enforced only when positive, `0` meaning
unbounded) is counted as skipped, never as failed; with both bounds zero an
otherwise-admissible file of any size is uploaded; and a batch over one file
below `min_file_size_mb = 10` and one above `max_file_size_mb = 100` reports
`skipped = 2, uploaded = 0, failed = 0`. -/
theorem C7_size_bounds :
    (∀ (fs : FileSettings) (h0 : List Nat) (st : BatchState) (f : FileCand),
      ((fs.min_file_size_mb > 0 ∧ f.size_mb < fs.min_file_size_mb) ∨
       (fs.max_file_size_mb > 0 ∧ f.size_mb > fs.max_file_size_mb)) →
      processFile fs h0 st f = { st with skipped := st.skipped + 1 }) ∧
    (∀ (h0 : List Nat) (st : BatchState) (f : FileCand),
      f.complete = true → f.hash_ok = true → f.hash ∉ h0 → f.upload_ok = true →
      processFile ⟨0, 0⟩ h0 st f =
        { st with uploaded := st.uploaded + 1,
                  hash_log := st.hash_log ++ [f.hash],
                  disposed := st.disposed ++ [f.name] }) ∧
    start_batch_upload ⟨10, 100⟩ []
        [⟨"small.mp4", 5, true, true, 1, true⟩, ⟨"big.mp4", 200, true, true, 2, true⟩] =
      ⟨0, 2, 0, [], []⟩ := by
  refine ⟨?_, ?_, ?_⟩
  · intro fs h0 st f hsz
    by_cases h1 : fs.min_file_size_mb > 0 ∧ f.size_mb < fs.min_file_size_mb
    · rw [processFile, if_pos h1]
    · rcases hsz with h | h
      · exact absurd h h1
      · rw [processFile, if_neg h1, if_pos h]
  · intro h0 st f hc hh hdup hu
    rw [processFile, if_neg (by norm_num), if_neg (by norm_num),
        if_neg (by simp [hc]), if_neg (by simp [hh]), if_neg hdup, if_pos hu]
  · norm_num [start_batch_upload, processFile]

/-- C7, witness: a 5 MB file under a 10 MB minimum is skipped, not failed. -/
theorem C7_size_bounds_witness :
    processFile ⟨10, 100⟩ [] ⟨0, 0, 0, [], []⟩ ⟨"small.mp4", 5, true, true, 1, true⟩ =
      ⟨0, 1, 0, [], []⟩ :=
  (C7_size_bounds).1 ⟨10, 100⟩ [] ⟨0, 0, 0, [], []⟩ ⟨"small.mp4", 5, true, true, 1, true⟩
    (Or.inl ⟨by norm_num, by norm_num⟩)

/-- C8 (confirmed): a terminal upload failure of an admitted file increments
only the failed counter — the source file is neither deleted/moved nor its
fingerprint appended — and the fold over the remaining candidates continues
unchanged (one file's failure never aborts the run); concretely, a failing
file followed by a successful one yields `uploaded = 1, failed = 1` with only
the successful file disposed and ledgered. -/
theorem C8_failure_isolation :
    (∀ (fs : FileSettings) (h0 : List Nat) (st : BatchState) (f : FileCand),
      admitted fs h0 f = true → f.upload_ok = false →
      processFile fs h0 st f = { st with failed := st.failed + 1 }) ∧
    (∀ (fs : FileSettings) (h0 : List Nat) (files1 files2 : List FileCand),
      start_batch_upload fs h0 (files1 ++ files2) =
        files2.foldl (processFile fs h0) (start_batch_upload fs h0 files1)) ∧
    start_batch_upload ⟨0, 0⟩ []
        [⟨"bad.mp4", 5, true, true, 1, false⟩, ⟨"good.mp4", 5, true, true, 2, true⟩] =
      ⟨1, 0, 1, [2], ["good.mp4"]⟩ := by
  refine ⟨?_, ?_, ?_⟩
  · intro fs h0 st f ha hu
    rw [admitted] at ha
    split_ifs at ha with h1 h2 h3 h4 h5
    rw [processFile, if_neg h1, if_neg h2, if_neg h3, if_neg h4, if_neg h5,
        if_neg (by simp [hu])]
  · intro fs h0 files1 files2
    rw [start_batch_upload, start_batch_upload, List.foldl_append]
  · norm_num [start_batch_upload, processFile]

/-- C8, witness: an admitted file whose upload raises only bumps `failed`. -/
theorem C8_failure_isolation_witness :
    processFile ⟨0, 0⟩ [] ⟨0, 0, 0, [], []⟩ ⟨"bad.mp4", 5, true, true, 1, false⟩ =
      ⟨0, 0, 1, [], []⟩ :=
  (C8_failure_isolation).1 ⟨0, 0⟩ [] ⟨0, 0, 0, [], []⟩ ⟨"bad.mp4", 5, true, true, 1, false⟩
    (by norm_num [admitted]) rfl

/-- C9, counterexample: a persisted credential that is invalid and *not*
refresh-eligible (here: expired with no refresh token — irrecoverably
invalid) does **not** trigger the interactive authorization flow: the Python
`if not creds:` test sees a truthy credential object, so the invalid
credential is re-saved and used as-is (`flow_runs = 0`, not exactly once). -/
theorem C9_counterexample :
    get_authenticated_service none (some ⟨false, true, false⟩) (fun _ => none)
        ⟨true, false, false⟩ =
      ⟨⟨false, true, false⟩, 0, some ⟨false, true, false⟩, some ⟨false, true, false⟩⟩ := by
  decide

/-- C9 (amended): with no cached credential, a persisted expired-but-
refreshable credential whose refresh succeeds yields a transport with the
refreshed credential and **zero** interactive-flow invocations; an absent
credential, or one whose refresh raises `RefreshError`, triggers the
interactive flow exactly once and persists its result; but a persisted
invalid credential that is not refresh-eligible (not expired, or without a
refresh token) does *not* trigger the flow — it is re-persisted and used
as-is. -/
theorem C9_credential_manager (stored : Creds) (refresh : Creds → Option Creds)
    (flowCreds c' : Creds)
    (hv : stored.valid = false) (hexp : stored.expired = true)
    (hrt : stored.refresh_token = true) :
    (refresh stored = some c' →
      get_authenticated_service none (some stored) refresh flowCreds = ⟨c', 0, some c', some c'⟩) ∧
    (refresh stored = none →
      get_authenticated_service none (some stored) refresh flowCreds =
        ⟨flowCreds, 1, some flowCreds, some flowCreds⟩) ∧
    (get_authenticated_service none none refresh flowCreds =
      ⟨flowCreds, 1, some flowCreds, some flowCreds⟩) ∧
    (∀ st2 : Creds, st2.valid = false → (st2.expired = false ∨ st2.refresh_token = false) →
      get_authenticated_service none (some st2) refresh flowCreds =
        ⟨st2, 0, some st2, some st2⟩) := by
  refine ⟨?_, ?_, rfl, ?_⟩
  · intro h
    simp [get_authenticated_service, auth_load_and_refresh, hv, hexp, hrt, h]
  · intro h
    simp [get_authenticated_service, auth_load_and_refresh, hv, hexp, hrt, h]
  · intro st2 hv2 hne
    rcases hne with h | h <;>
      simp [get_authenticated_service, auth_load_and_refresh, hv2, h]

/-- C9, witness: an expired-but-refreshable stored credential refreshing to a
valid one produces a transport without running the interactive flow, and a
missing credential runs it exactly once. -/
theorem C9_credential_manager_witness :
    (get_authenticated_service none (some ⟨false, true, true⟩)
        (fun _ => some ⟨true, false, true⟩) ⟨true, false, false⟩ =
      ⟨⟨true, false, true⟩, 0, some ⟨true, false, true⟩, some ⟨true, false, true⟩⟩) ∧
    (get_authenticated_service none none
        (fun _ => some ⟨true, false, true⟩) ⟨true, false, false⟩ =
      ⟨⟨true, false, false⟩, 1, some ⟨true, false, false⟩, some ⟨true, false, false⟩⟩) :=
  ⟨(C9_credential_manager ⟨false, true, true⟩ (fun _ => some ⟨true, false, true⟩)
      ⟨true, false, false⟩ ⟨true, false, true⟩ rfl rfl rfl).1 rfl,
   (C9_credential_manager ⟨false, true, true⟩ (fun _ => some ⟨true, false, true⟩)
      ⟨true, false, false⟩ ⟨true, false, true⟩ rfl rfl rfl).2.2.1⟩

end ShadowPlay
